import Mathlib

/-!
Verification of the reservation availability engine of the Restaurant-Agent
repository (`restaurant_agent/services/reservation_service.py`,
`restaurant_agent/services/database.py`,
`restaurant_agent/config/reservation_config.py`,
`restaurant_agent/agents/reservation_agent.py`).

Modelling conventions:
* Python strings are modelled as Lean `String` / `List Char`; the Python
  `str` methods used by the code (`strip`, `lower`, `replace`, `split`,
  substring membership, regex digit runs) are re-implemented below on
  `List Char` so that everything reduces in the kernel.
* Times of day are minutes since midnight (`Nat`); `datetime` arithmetic on
  a single day, as used by the code, is plain arithmetic on those minutes
  (an interval end may pass midnight, exactly as a `datetime` may).
* Dates are day indices (`Nat`), counted from a fixed Monday, so that
  `today % 7` is the Python `date.weekday()` (Monday = 0).
* Python `int` results are `Int` (they may be negative); `int()` applied to
  a float truncates toward zero, modelled by `pyTrunc` on `ℚ`.
* A Python function that may raise is modelled with `Option`; the
  `try/except` handlers of the source become `Option.getD`.
-/

namespace RestaurantAgent

/-- Characters the Python `str.strip()` removes. -/
def pyIsSpace (c : Char) : Bool :=
  c == ' ' || c == '\t' || c == '\n' || c == '\r' || c == '\x0b' || c == '\x0c'

/-- Model of the Python `str.strip()` on a list of characters. -/
def pyStrip (l : List Char) : List Char :=
  ((l.dropWhile pyIsSpace).reverse.dropWhile pyIsSpace).reverse

/-- Boolean list-prefix test (helper for substring search and `replace`). -/
def isPrefixL : List Char → List Char → Bool
  | [], _ => true
  | _ :: _, [] => false
  | a :: as, b :: bs => a == b && isPrefixL as bs

/-- Model of the Python substring test `pat in s`. -/
def containsSub (pat : List Char) : List Char → Bool
  | [] => isPrefixL pat []
  | c :: rest => isPrefixL pat (c :: rest) || containsSub pat rest

/-- Fuel-driven worker for `pyReplaceDel`; the fuel is the length of the
remaining input, so it never runs out. -/
def pyReplaceDelAux (pat : List Char) : Nat → List Char → List Char
  | 0, l => l
  | _, [] => []
  | fuel + 1, c :: rest =>
    if pat ≠ [] ∧ isPrefixL pat (c :: rest) then
      pyReplaceDelAux pat fuel ((c :: rest).drop pat.length)
    else
      c :: pyReplaceDelAux pat fuel rest

/-- Model of the Python `s.replace(pat, '')`: delete every (left-to-right,
non-overlapping) occurrence of `pat`. -/
def pyReplaceDel (pat l : List Char) : List Char :=
  pyReplaceDelAux pat l.length l

/-- First maximal run of decimal digits, i.e. the Python
`re.findall(r'\d+', s)[0]` when it exists. -/
def firstDigitRun : List Char → Option (List Char)
  | [] => none
  | c :: rest =>
    if c.isDigit then some (c :: rest.takeWhile Char.isDigit)
    else firstDigitRun rest

/-- Numeric value of a list of decimal digits. -/
def digitsToNat (l : List Char) : Nat :=
  l.foldl (fun n c => 10 * n + (c.toNat - '0'.toNat)) 0

/-- Checker for the digit body accepted by the Python `int()` constructor:
nonempty, starts and ends with a digit, and every underscore sits between
two digits.  `prev` is the previous character. -/
def pyIntBodyAux : Char → List Char → Bool
  | prev, [] => prev.isDigit
  | prev, c :: rest =>
    (if c == '_' then prev.isDigit else c.isDigit) && pyIntBodyAux c rest

/-- Body check for `int()` (see `pyIntBodyAux`). -/
def pyIntBody : List Char → Bool
  | [] => false
  | c :: rest => c.isDigit && pyIntBodyAux c rest

/-- Model of the Python `int(s)` on strings: optional surrounding
whitespace, optional sign, decimal digits with single internal
underscores.  Returns `none` where `int()` raises `ValueError`. -/
def pyIntOpt (l : List Char) : Option Int :=
  let t := pyStrip l
  match t with
  | '+' :: rest =>
    if pyIntBody rest then some (digitsToNat (rest.filter (fun c => !(c == '_')))) else none
  | '-' :: rest =>
    if pyIntBody rest then some (-(digitsToNat (rest.filter (fun c => !(c == '_'))) : Int)) else none
  | _ =>
    if pyIntBody t then some (digitsToNat (t.filter (fun c => !(c == '_')))) else none

/-- Model of the Python `s.split(':')`. -/
def splitOnColon : List Char → List (List Char)
  | [] => [[]]
  | c :: rest =>
    let r := splitOnColon rest
    if c == ':' then [] :: r
    else
      match r with
      | [] => [[c]]
      | h :: t => (c :: h) :: t

/-- Model of `hour, minute = map(int, s.split(':'))` followed by building a
`datetime.time(hour, minute)`: both the unpacking (exactly two parts), the
two `int()` conversions, and the range check of the `time` constructor can
raise `ValueError`; any of these failing yields `none`.  Every call site of
this pattern in the source performs both steps inside one `try`. -/
def pyParseTimeHM (s : String) : Option (Nat × Nat) :=
  match splitOnColon s.toList with
  | [hs, ms] =>
    match pyIntOpt hs, pyIntOpt ms with
    | some h, some m =>
      if 0 ≤ h ∧ h < 24 ∧ 0 ≤ m ∧ m < 60 then some (h.toNat, m.toNat) else none
    | _, _ => none
  | _ => none

/-- Two-or-more-digit decimal rendering of a natural number, fuel-driven
worker. -/
def natDigitsAux : Nat → Nat → List Char
  | 0, _ => []
  | fuel + 1, n =>
    if n < 10 then [Char.ofNat ('0'.toNat + n)]
    else natDigitsAux fuel (n / 10) ++ [Char.ofNat ('0'.toNat + n % 10)]

/-- Decimal digits of a natural number. -/
def natDigits (n : Nat) : List Char :=
  natDigitsAux (n + 1) n

/-- Model of the Python format `f"{n:02d}"` for a nonnegative `n`. -/
def fmt02 (n : Nat) : List Char :=
  if n < 10 then '0' :: natDigits n else natDigits n

/-- Time-of-day (minutes since midnight) rendered as `"HH:MM"`, the
`strftime("%H:%M")` of the source. -/
def fmtTimeMin (t : Nat) : String :=
  String.mk (fmt02 (t / 60) ++ ':' :: fmt02 (t % 60))

/-- Model of the Python `int()` applied to a nonnegative-or-negative
rational (truncation toward zero). -/
def pyTrunc (q : ℚ) : Int :=
  if 0 ≤ q then ⌊q⌋ else ⌈q⌉

/-- Product of a natural number with a rational, built at the num/den
level so that it reduces in the kernel (`Rat.mul` is irreducible); it
equals `(n : ℚ) * q`, see `ratScale_eq`. -/
def ratScale (n : Nat) (q : ℚ) : ℚ :=
  mkRat (n * q.num) q.den

/-- The kernel-friendly product agrees with rational multiplication. -/
theorem ratScale_eq (n : Nat) (q : ℚ) : ratScale n q = (n : ℚ) * q := by
  unfold ratScale
  rw [Rat.mkRat_eq_div]
  push_cast
  rw [mul_div_assoc, Rat.num_div_den]

end RestaurantAgent

namespace ReservationConfig

/-- Total seats available (`TOTAL_CAPACITY = 50`). -/
def TOTAL_CAPACITY : Nat := 50

/-- Opening time 11:00, in minutes since midnight. -/
def OPENING_TIME : Nat := 11 * 60

/-- Closing time 23:00, in minutes since midnight. -/
def CLOSING_TIME : Nat := 23 * 60

/-- Booking granularity in minutes (`SLOT_INTERVAL_MINUTES = 15`). -/
def SLOT_INTERVAL_MINUTES : Nat := 15

/-- Average dining time in minutes (`DEFAULT_DINING_DURATION = 90`). -/
def DEFAULT_DINING_DURATION : Nat := 90

/-- Peak hours start 19:00, in minutes since midnight. -/
def PEAK_HOURS_START : Nat := 19 * 60

/-- Peak hours end 21:00, in minutes since midnight. -/
def PEAK_HOURS_END : Nat := 21 * 60

/-- Peak-hour capacity ceiling (`PEAK_HOUR_CAPACITY_LIMIT = 1.00`). -/
def PEAK_HOUR_CAPACITY_LIMIT : ℚ := 1

/-- Off-peak capacity ceiling (`OFF_PEAK_CAPACITY_LIMIT = 1.00`). -/
def OFF_PEAK_CAPACITY_LIMIT : ℚ := 1

/-- Search window around a preferred time
(`ALTERNATIVE_TIME_WINDOW_MINUTES = 60`). -/
def ALTERNATIVE_TIME_WINDOW_MINUTES : Nat := 60

/-- Number of alternative slots to speak
(`MAX_ALTERNATIVE_SUGGESTIONS = 3`). -/
def MAX_ALTERNATIVE_SUGGESTIONS : Nat := 3

/-- Model of `ReservationConfig.get_max_capacity_for_time`: the Python
`time` comparison `PEAK_HOURS_START <= booking_time < PEAK_HOURS_END` is
the same comparison on minutes since midnight, and `int(...)` on the float
product is `pyTrunc` on the rational product. -/
def get_max_capacity_for_time (t : Nat) : Int :=
  if PEAK_HOURS_START ≤ t ∧ t < PEAK_HOURS_END then
    RestaurantAgent.pyTrunc (RestaurantAgent.ratScale TOTAL_CAPACITY PEAK_HOUR_CAPACITY_LIMIT)
  else
    RestaurantAgent.pyTrunc (RestaurantAgent.ratScale TOTAL_CAPACITY OFF_PEAK_CAPACITY_LIMIT)

/-- Model of `ReservationConfig.is_peak_hour`. -/
def is_peak_hour (t : Nat) : Bool :=
  decide (PEAK_HOURS_START ≤ t ∧ t < PEAK_HOURS_END)

end ReservationConfig

namespace RestaurantAgent

/-- Stored reservation document, with the fields the availability engine
reads (`phone`, `customer_name` and the timestamps are carried along by the
code but never used in the computations verified here; the two identity
fields are kept, the timestamps are dropped).  `booking_date` is the day
index of the stored midnight `datetime`. -/
structure ReservationDoc where
  phone : String
  customer_name : String
  party_size : Nat
  booking_date : Nat
  booking_time : String
  dining_duration : Nat
  status : String
deriving DecidableEq, Repr

/-- Worker for the overlap-filtering loop of
`MongoDB.get_reservations_for_slot` (database.py lines 284-298): parses
each booking time (a `ValueError` anywhere aborts the whole call, hence
the `Option`), and keeps the records satisfying
`res_start < slot_end and res_end > slot_start`. -/
def overlapFilterLoop (slotStart slotEnd : Nat) : List ReservationDoc → Option (List ReservationDoc)
  | [] => some []
  | r :: rest =>
    match pyParseTimeHM r.booking_time with
    | none => none
    | some (rh, rm) =>
      let resStart := 60 * rh + rm
      let resEnd := resStart + r.dining_duration
      match overlapFilterLoop slotStart slotEnd rest with
      | none => none
      | some tail =>
        some (if resStart < slotEnd ∧ resEnd > slotStart then r :: tail else tail)

/-- Model of `MongoDB.get_reservations_for_slot(booking_date, booking_time,
dining_duration)`.  The Mongo query keeps the records whose stored midnight
`booking_date` lies in that day and whose `status` is `"confirmed"`; the
Python loop then filters by strict interval overlap.  Any `ValueError`
(from the slot time or from a stored booking time) is caught by the
enclosing `except`, which returns `[]`. -/
def get_reservations_for_slot (db : List ReservationDoc) (bdate : Nat) (btime : String)
    (dur : Nat) : List ReservationDoc :=
  match pyParseTimeHM btime with
  | none => []
  | some (h, m) =>
    let slotStart := 60 * h + m
    let slotEnd := slotStart + dur
    let dated := db.filter (fun r => r.booking_date == bdate && r.status == "confirmed")
    (overlapFilterLoop slotStart slotEnd dated).getD []

/-- Model of `ReservationService.calculate_available_capacity`: parse the
booking time (returning `0` on failure), take the capacity ceiling for
that time, fetch the overlapping reservations, and subtract the summed
party sizes of the confirmed ones.  The result is an `Int`: it may be
negative when the slot is overbooked. -/
def calculate_available_capacity (db : List ReservationDoc) (bdate : Nat) (btime : String)
    (dur : Nat) : Int :=
  match pyParseTimeHM btime with
  | none => 0
  | some (h, m) =>
    let maxCap := ReservationConfig.get_max_capacity_for_time (60 * h + m)
    let overlapping := get_reservations_for_slot db bdate btime dur
    let occupied : Nat :=
      ((overlapping.filter (fun r => r.status == "confirmed")).map
        (fun r => r.party_size)).sum
    maxCap - occupied

/-- Fuel-driven model of the slot-generation loop of
`ReservationService.generate_time_slots` (`while current <= closing`,
stepping by the slot interval); the fuel bounds the loop and is chosen
large enough that it never runs out. -/
def slotTimesFrom : Nat → Nat → List Nat
  | 0, _ => []
  | fuel + 1, cur =>
    if cur ≤ ReservationConfig.CLOSING_TIME then
      cur :: slotTimesFrom fuel (cur + ReservationConfig.SLOT_INTERVAL_MINUTES)
    else []

/-- Model of `ReservationService.generate_time_slots`: every slot string
from opening to closing time inclusive, stepped by the granularity. -/
def generate_time_slots : List String :=
  (slotTimesFrom 100 ReservationConfig.OPENING_TIME).map fmtTimeMin

/-- Python truthiness of the optional `preferred_time` argument (`None`
and the empty string are falsy). -/
def prefTruthy : Option String → Bool
  | none => false
  | some s => !(s == "")

/-- Worker for the ±window filtering loop of
`ReservationService.get_available_slots` (lines 199-205): parses each slot
string (a failure raises, aborting the whole `try` block) and keeps the
slots within the window of the preferred minute. -/
def windowFilterLoop (prefMin : Nat) : List String → Option (List String)
  | [] => some []
  | s :: rest =>
    match pyParseTimeHM s with
    | none => none
    | some (sh, sm) =>
      let d := ((60 * sh + sm : Int) - prefMin).natAbs
      match windowFilterLoop prefMin rest with
      | none => none
      | some tail =>
        some (if d ≤ ReservationConfig.ALTERNATIVE_TIME_WINDOW_MINUTES then s :: tail else tail)

/-- Candidate slots of `get_available_slots` (lines 190-208): all slots of
the day, narrowed to the ±60-minute window when a (truthy, parseable)
preferred time is given; on a parse failure the `except` falls back to all
slots. -/
def search_slots (pref : Option String) : List String :=
  match pref with
  | none => generate_time_slots
  | some p =>
    if p == "" then generate_time_slots
    else
      match pyParseTimeHM p with
      | none => generate_time_slots
      | some (ph, pm) =>
        (windowFilterLoop (60 * ph + pm) generate_time_slots).getD generate_time_slots

/-- Distance attached to a kept slot (lines 220-229): `0` without a truthy
preferred time, otherwise the absolute difference in minutes; the bare
`except: pass` leaves `0` when either time fails to parse. -/
def slot_distance (pref : Option String) (s : String) : Nat :=
  match pref with
  | none => 0
  | some p =>
    if p == "" then 0
    else
      match pyParseTimeHM p, pyParseTimeHM s with
      | some (ph, pm), some (sh, sm) => ((60 * sh + sm : Int) - (60 * ph + pm)).natAbs
      | _, _ => 0

/-- Entry of the list returned by `get_available_slots`.  The Python
`distance_minutes` is a float whose value is always a whole number of
minutes; it is modelled as a `Nat`. -/
structure SlotInfo where
  time : String
  available_capacity : Int
  distance_minutes : Nat
deriving DecidableEq, Repr

/-- Per-slot availability loop of `get_available_slots` (lines 211-235):
keep a slot exactly when its capacity is at least the party size. -/
def collect_available (db : List ReservationDoc) (bdate : Nat) (party : Int)
    (pref : Option String) : List SlotInfo :=
  (search_slots pref).filterMap (fun s =>
    if party ≤ calculate_available_capacity db bdate s
        ReservationConfig.DEFAULT_DINING_DURATION then
      some ⟨s, calculate_available_capacity db bdate s
        ReservationConfig.DEFAULT_DINING_DURATION, slot_distance pref s⟩
    else none)

/-- Sort key when a preferred time was supplied: ascending distance. -/
def distLE (a b : SlotInfo) : Prop :=
  a.distance_minutes ≤ b.distance_minutes

instance : DecidableRel distLE :=
  fun a b => inferInstanceAs (Decidable (a.distance_minutes ≤ b.distance_minutes))

instance : IsTotal SlotInfo distLE :=
  ⟨fun a b => Nat.le_total a.distance_minutes b.distance_minutes⟩

instance : IsTrans SlotInfo distLE :=
  ⟨fun _ _ _ h h2 => Nat.le_trans h h2⟩

/-- Sort key without a preferred time: the slot string itself (the Python
sort compares the `"HH:MM"` strings lexicographically). -/
def timeLE (a b : SlotInfo) : Prop :=
  a.time ≤ b.time

instance : DecidableRel timeLE :=
  fun a b => inferInstanceAs (Decidable (a.time ≤ b.time))

/-- Model of `ReservationService.get_available_slots`.  The final Python
`list.sort(key=...)` is a stable sort; `List.insertionSort` with the
corresponding key order is extensionally the same (unique) stable sort and
reduces in the kernel. -/
def get_available_slots (db : List ReservationDoc) (bdate : Nat) (party : Int)
    (pref : Option String) : List SlotInfo :=
  let collected := collect_available db bdate party pref
  if prefTruthy pref then collected.insertionSort distLE
  else collected.insertionSort timeLE

/-- Truncation performed by `ReservationAgent.suggest_alternative_slots`
(`available_slots[:MAX_ALTERNATIVE_SUGGESTIONS]`). -/
def top_alternatives (db : List ReservationDoc) (bdate : Nat) (party : Int)
    (pref : Option String) : List SlotInfo :=
  (get_available_slots db bdate party pref).take ReservationConfig.MAX_ALTERNATIVE_SUGGESTIONS

end RestaurantAgent

namespace RestaurantAgent

/-- Rounding of the parsed minute in `round_time_to_slot`
(`round(minute / 15) * 15`).  For an integer minute the quotient
`minute / 15` is never exactly halfway between two integers (that would
need `minute % 15 = 7.5`), so round-half-to-even and round-half-up agree,
and for every minute below `2^52` the float division is exact enough that
the nearest integer is the exact nearest; the cut sits between remainder 7
and remainder 8. -/
def pyRound15 (m : Nat) : Nat :=
  if m % 15 ≤ 7 then 15 * (m / 15) else 15 * (m / 15 + 1)

/-- PM-marker detection of `round_time_to_slot` (line 38), performed on
the lowered, stripped input before any removal. -/
def rtIsPM (l1 : List Char) : Bool :=
  containsSub "p.m".toList l1 || containsSub "pm".toList l1 || containsSub "p m".toList l1

/-- AM-marker detection of `round_time_to_slot` (line 39). -/
def rtIsAM (l1 : List Char) : Bool :=
  containsSub "a.m".toList l1 || containsSub "am".toList l1 || containsSub "a m".toList l1

/-- Marker-removal chain of `round_time_to_slot` (lines 42-49): the eight
AM/PM spellings, then any remaining dots, then a strip and the removal of
all spaces, in source order. -/
def rtNormalize (l1 : List Char) : List Char :=
  pyReplaceDel " ".toList (pyStrip (pyReplaceDel ".".toList
    (pyReplaceDel "a m".toList (pyReplaceDel "p m".toList
      (pyReplaceDel "am".toList (pyReplaceDel "pm".toList
        (pyReplaceDel "a.m".toList (pyReplaceDel "p.m".toList
          (pyReplaceDel "a.m.".toList (pyReplaceDel "p.m.".toList l1))))))))))

/-- Minute extraction of `round_time_to_slot` (lines 56-60): take
`parts[1]` when it exists (after a colon split it always does), default
`'0'`; then the first digit run, defaulting to `0`. -/
def rtMinuteOf (parts : List (List Char)) : Nat :=
  match parts with
  | _ :: mstr :: _ =>
    (match firstDigitRun mstr with
     | some run => digitsToNat run
     | none => 0)
  | _ =>
    (match firstDigitRun ['0'] with
     | some run => digitsToNat run
     | none => 0)

/-- Hour/minute extraction of `round_time_to_slot` (lines 52-66) from the
normalized string: with a colon, `int(parts[0])` (whose `ValueError` is
the only exception of the whole `try` block, hence the `Option`) and the
digit-run minute; without one, the first digit run as the hour (defaulting
to 19) and minute `0`. -/
def rtParse (l : List Char) : Option (Int × Nat) :=
  if l.contains ':' = true then
    match pyIntOpt ((splitOnColon l).headD []) with
    | none => none
    | some hour => some (hour, rtMinuteOf (splitOnColon l))
  else
    match firstDigitRun l with
    | some run => some ((digitsToNat run : Int), 0)
    | none => some (19, 0)

/-- Final arithmetic of `round_time_to_slot` (lines 68-83): 12-to-24-hour
conversion, minute rounding with carry, hour wrap modulo 24, and the
`f"{hour:02d}:{minute:02d}"` rendering. -/
def rtFinish (is_pm is_am : Bool) (hour : Int) (minute : Nat) : String :=
  let hour2 : Int :=
    if is_pm = true ∧ hour < 12 then hour + 12
    else if is_am = true ∧ hour = 12 then 0
    else hour
  let rm := pyRound15 minute
  let hour3 : Int := if rm = 60 then hour2 + 1 else hour2
  let rm2 : Nat := if rm = 60 then 0 else rm
  let hourF : Nat := (hour3 % 24).toNat
  String.mk (fmt02 hourF ++ ':' :: fmt02 rm2)

/-- Body of the `try` block of `ReservationService.round_time_to_slot`
(lines 29-83), on the character list of the input; `none` models a
`ValueError` escaping to the `except` handler.  The AM/PM detection runs
on the lowered, stripped input before the removal chain, exactly as in the
source. -/
def roundTimeAux (l0 : List Char) : Option String :=
  match rtParse (rtNormalize ((pyStrip l0).map Char.toLower)) with
  | none => none
  | some (hour, minute) =>
    some (rtFinish (rtIsPM ((pyStrip l0).map Char.toLower))
      (rtIsAM ((pyStrip l0).map Char.toLower)) hour minute)

/-- Model of `ReservationService.round_time_to_slot`: the `except` handler
returns `"19:00"` on any parse exception. -/
def round_time_to_slot (s : String) : String :=
  (roundTimeAux s.toList).getD "19:00"

/-- Day-name table of `parse_natural_date` (Python dict, iterated in
insertion order). -/
def days_of_week : List (String × Nat) :=
  [("monday", 0), ("tuesday", 1), ("wednesday", 2), ("thursday", 3),
   ("friday", 4), ("saturday", 5), ("sunday", 6)]

/-- Days ahead to the next occurrence of weekday `dayNum` seen from
weekday `curDay`: the Python `(day_num - current_day) % 7` (the Python
`%` on a positive modulus is `Int.emod`, both are nonnegative), with `0`
promoted to a full week. -/
def nextAhead (dayNum curDay : Nat) : Nat :=
  let a := (((dayNum : Int) - curDay) % 7).toNat
  if a = 0 then 7 else a

/-- Weekday-name loop of `parse_natural_date` (lines 273-280): the first
table entry whose name occurs in the input yields
`today + days_ahead`. -/
def weekdayLookup (ds : List Char) (today : Nat) : List (String × Nat) → Option Nat
  | [] => none
  | (name, num) :: rest =>
    if containsSub name.toList ds then some (today + nextAhead num (today % 7))
    else weekdayLookup ds today rest

/-- Model of `ReservationService.parse_natural_date` on natural-language
inputs.  `today` is the current day index (see the header: `today % 7` is
the Python weekday, Monday = 0).  The two final `strptime` fallbacks
(ISO `YYYY-MM-DD` and US `MM/DD/YYYY`) are not modelled and are folded
into the `none` (could-not-parse) result: they are unreachable for the
relative-date and weekday-name inputs treated by the claims, which all
return from an earlier branch. -/
def parse_natural_date (dateStr : String) (today : Nat) : Option Nat :=
  let ds := (pyStrip dateStr.toList).map Char.toLower
  if ds = "today".toList ∨ ds = "tonight".toList then some today
  else if ds = "tomorrow".toList then some (today + 1)
  else if containsSub "next week".toList ds then some (today + 7)
  else
    match weekdayLookup ds today days_of_week with
    | some d => some d
    | none => none

/-- Ephemeral pending reservation held in the session user data. -/
structure PendingReservation where
  date : Nat
  time : String
  party_size : Nat
  formatted_date : String
  formatted_time : String
deriving DecidableEq, Repr

/-- Session user data read by `confirm_reservation`.  `none` and the empty
string are both falsy for the Python `if not userdata...` checks. -/
structure UserData where
  customer_phone : Option String
  customer_name : Option String
  pending_reservation : Option PendingReservation
deriving DecidableEq, Repr

/-- Python falsiness of an optional string field. -/
def falsyStr : Option String → Bool
  | none => true
  | some s => s == ""

/-- Reservation document built by `confirm_reservation` (timestamps and
the `special_requests: None` field dropped, as in `ReservationDoc`). -/
def build_reservation_data (ud : UserData) (p : PendingReservation) : ReservationDoc :=
  { phone := ud.customer_phone.getD ""
    customer_name := ud.customer_name.getD ""
    party_size := p.party_size
    booking_date := p.date
    booking_time := p.time
    dining_duration := ReservationConfig.DEFAULT_DINING_DURATION
    status := "confirmed" }

/-- Model of `ReservationAgent.confirm_reservation` (lines 356-417).
`sinkOk` is the Boolean returned by `MongoDB.save_reservation`, which is
`False` both when the client is absent and when `insert_one` raises (the
exception is caught inside `save_reservation`), so a persistence failure
reaches this function only as `sinkOk = false`.  Returns the spoken reply
together with the updated user data (the pending reservation is cleared
only on a successful save). -/
def confirm_reservation (ud : UserData) (sinkOk : Bool) : String × UserData :=
  if falsyStr ud.customer_phone then
    ("I need your phone number to confirm the reservation. What\x27s your phone number?", ud)
  else if falsyStr ud.customer_name then
    ("I need your name to confirm the reservation. May I have your name please?", ud)
  else
    match ud.pending_reservation with
    | none =>
      ("There\x27s no pending reservation to confirm. Let\x27s start over. What date would you like to reserve for?", ud)
    | some p =>
      if sinkOk then
        ("Excellent! Your reservation is confirmed, " ++ ud.customer_name.getD "" ++
          ". We\x27ll see you on " ++ p.formatted_date ++ " at " ++ p.formatted_time ++
          " for " ++ toString p.party_size ++ " people. We look forward to serving you! " ++
          "Is there anything else I can help you with?",
          { ud with pending_reservation := none })
      else
        ("Your reservation is confirmed for " ++ p.formatted_date ++ " at " ++
          p.formatted_time ++ ". Thank you!", ud)

end RestaurantAgent

namespace RestaurantAgent

/-- Elementwise-false predicate leaves `dropWhile` alone. -/
theorem dropWhile_eq_self_of_all {p : Char → Bool} :
    ∀ {l : List Char}, (∀ c ∈ l, p c = false) → l.dropWhile p = l
  | [], _ => rfl
  | c :: rest, h => by
    have hc : p c = false := h c (List.mem_cons_self c rest)
    simp [List.dropWhile, hc]

/-- Strings without strippable characters are fixed by `pyStrip`. -/
theorem pyStrip_eq_self {l : List Char} (h : ∀ c ∈ l, pyIsSpace c = false) :
    pyStrip l = l := by
  unfold pyStrip
  rw [dropWhile_eq_self_of_all h]
  rw [dropWhile_eq_self_of_all (fun c hc => h c (List.mem_reverse.mp hc))]
  exact List.reverse_reverse l

/-- Digit characters have code points in `[48, 57]`. -/
theorem toNat_of_isDigit {c : Char} (h : c.isDigit = true) :
    48 ≤ c.toNat ∧ c.toNat ≤ 57 := by
  unfold Char.isDigit at h
  rw [Bool.and_eq_true] at h
  constructor
  · have := h.1
    simp [Char.le_def] at this ⊢
    exact this
  · have := h.2
    simp [Char.le_def] at this ⊢
    exact this

/-- Facts about a digit character used by the time-rounding pipeline: it
is not strippable, is fixed by `toLower`, and differs from every marker
character the pipeline searches for. -/
theorem digitChar_facts {c : Char} (h : c.isDigit = true) :
    pyIsSpace c = false ∧ Char.toLower c = c ∧
      c ≠ 'p' ∧ c ≠ 'a' ∧ c ≠ '.' ∧ c ≠ ' ' := by
  obtain ⟨h1, h2⟩ := toNat_of_isDigit h
  refine ⟨?_, ?_, ?_, ?_, ?_, ?_⟩
  · unfold pyIsSpace
    simp only [Bool.or_eq_false_iff]
    refine ⟨⟨⟨⟨⟨?_, ?_⟩, ?_⟩, ?_⟩, ?_⟩, ?_⟩ <;>
      · rw [beq_eq_false_iff_ne]
        intro hc
        subst hc
        simp [Char.toNat, UInt32.size] at h1 h2
  · unfold Char.toLower
    show (if c.toNat ≥ 65 ∧ c.toNat ≤ 90 then Char.ofNat (c.toNat + 32) else c) = c
    rw [if_neg]
    omega
  all_goals
    intro hc
    subst hc
    simp [Char.toNat, UInt32.size] at h1 h2

end RestaurantAgent

namespace RestaurantAgent

/-- Substring search fails when the first pattern character never occurs. -/
theorem containsSub_eq_false {p0 : Char} {pr : List Char} :
    ∀ {l : List Char}, (∀ c ∈ l, c ≠ p0) → containsSub (p0 :: pr) l = false
  | [], _ => rfl
  | c :: rest, h => by
    have hc : (p0 == c) = false := by
      rw [beq_eq_false_iff_ne]
      exact fun he => h c (List.mem_cons_self c rest) he.symm
    have ht := @containsSub_eq_false p0 pr rest (fun d hd => h d (List.mem_cons_of_mem c hd))
    simp [containsSub, isPrefixL, hc, ht]

/-- Deletion of a pattern whose first character never occurs is the
identity, fuel-driven worker version. -/
theorem pyReplaceDelAux_eq_self {p0 : Char} {pr : List Char} :
    ∀ (fuel : Nat) {l : List Char}, (∀ c ∈ l, c ≠ p0) →
      pyReplaceDelAux (p0 :: pr) fuel l = l
  | 0, [], _ => rfl
  | 0, _ :: _, _ => rfl
  | fuel + 1, [], _ => rfl
  | fuel + 1, c :: rest, h => by
    have hc : (p0 == c) = false := by
      rw [beq_eq_false_iff_ne]
      exact fun he => h c (List.mem_cons_self c rest) he.symm
    have ht := @pyReplaceDelAux_eq_self p0 pr fuel rest
      (fun d hd => h d (List.mem_cons_of_mem c hd))
    simp [pyReplaceDelAux, isPrefixL, hc, ht]

/-- Deletion of a pattern whose first character never occurs is the
identity. -/
theorem pyReplaceDel_eq_self {p0 : Char} {pr l : List Char}
    (h : ∀ c ∈ l, c ≠ p0) : pyReplaceDel (p0 :: pr) l = l :=
  pyReplaceDelAux_eq_self l.length h

/-- Splitting a colon-free string gives the single part. -/
theorem splitOnColon_of_no_colon :
    ∀ {l : List Char}, (∀ c ∈ l, c ≠ ':') → splitOnColon l = [l]
  | [], _ => rfl
  | c :: rest, h => by
    have hc : (c == ':') = false := by
      rw [beq_eq_false_iff_ne]
      exact h c (List.mem_cons_self c rest)
    have ht := splitOnColon_of_no_colon (fun d hd => h d (List.mem_cons_of_mem c hd))
    simp [splitOnColon, hc, ht]

/-- Splitting around a single colon separates the two colon-free parts. -/
theorem splitOnColon_append {a b : List Char}
    (ha : ∀ c ∈ a, c ≠ ':') (hb : ∀ c ∈ b, c ≠ ':') :
    splitOnColon (a ++ ':' :: b) = [a, b] := by
  induction a with
  | nil =>
    simp only [List.nil_append, splitOnColon]
    rw [splitOnColon_of_no_colon hb]
    rfl
  | cons c rest ih =>
    have hc : (c == ':') = false := by
      rw [beq_eq_false_iff_ne]
      exact ha c (List.mem_cons_self c rest)
    have ht := ih (fun d hd => ha d (List.mem_cons_of_mem c hd))
    simp [splitOnColon, hc, ht]

/-- A string with a colon in the middle passes the `':' in s` test. -/
theorem contains_colon_append (a b : List Char) :
    (a ++ ':' :: b).contains ':' = true := by
  induction a with
  | nil => simp [List.contains]
  | cons c rest ih => simp [List.contains] at ih ⊢

end RestaurantAgent

namespace RestaurantAgent

/-- Bounded check used below: for `n < 100`, `fmt02 n` is a digit string
that `int()` parses back to `n` and whose first digit run is the whole
string with value `n`. -/
def fmt02Check (n : Nat) : Bool :=
  (fmt02 n).all Char.isDigit &&
  (pyIntOpt (fmt02 n) == some (n : Int)) &&
  (match firstDigitRun (fmt02 n) with
   | some run => digitsToNat run == n
   | none => false)

/-- The `fmt02` round-trip holds for every two-digit value. -/
theorem fmt02Check_holds : ∀ n : Nat, n < 100 → fmt02Check n = true := by decide

end RestaurantAgent

namespace RestaurantAgent

/-- The two-digit renderings consist of digits. -/
theorem fmt02_all_digit (n : Nat) (hn : n < 100) : ∀ c ∈ fmt02 n, c.isDigit = true := by
  have := fmt02Check_holds n hn
  unfold fmt02Check at this
  rw [Bool.and_eq_true, Bool.and_eq_true] at this
  exact fun c hc => List.all_eq_true.mp this.1.1 c hc

/-- The Python `int()` parses a two-digit rendering back to its value. -/
theorem pyIntOpt_fmt02 (n : Nat) (hn : n < 100) : pyIntOpt (fmt02 n) = some (n : Int) := by
  have := fmt02Check_holds n hn
  unfold fmt02Check at this
  rw [Bool.and_eq_true, Bool.and_eq_true] at this
  exact eq_of_beq this.1.2

/-- The first digit run of a two-digit rendering has its value. -/
theorem firstDigitRun_fmt02 (n : Nat) (hn : n < 100) :
    ∃ run, firstDigitRun (fmt02 n) = some run ∧ digitsToNat run = n := by
  have := fmt02Check_holds n hn
  unfold fmt02Check at this
  rw [Bool.and_eq_true, Bool.and_eq_true] at this
  have h3 := this.2
  cases hr : firstDigitRun (fmt02 n) with
  | none => rw [hr] at h3; exact absurd h3 (by simp)
  | some run =>
    rw [hr] at h3
    exact ⟨run, rfl, by simpa using h3⟩

/-- Digit characters are not colons. -/
theorem digitChar_ne_colon {c : Char} (h : c.isDigit = true) : c ≠ ':' := by
  obtain ⟨h1, h2⟩ := toNat_of_isDigit h
  intro hc
  subst hc
  simp [Char.toNat, UInt32.size] at h1 h2

/-- Mapping `toLower` over characters it fixes is the identity. -/
theorem map_toLower_eq_self :
    ∀ {l : List Char}, (∀ c ∈ l, Char.toLower c = c) → l.map Char.toLower = l
  | [], _ => rfl
  | c :: rest, h => by
    have hc := h c (List.mem_cons_self c rest)
    have ht := map_toLower_eq_self (fun d hd => h d (List.mem_cons_of_mem c hd))
    simp [hc, ht]

end RestaurantAgent

namespace RestaurantAgent

/-- Behaviour of the `round_time_to_slot` pipeline on a canonical
two-digit `"HH:MM"` input: the string survives the marker stripping
untouched, the hour and minute parse back, and the result is the rounded
minute with its carry into the hour, the hour taken modulo 24. -/
theorem roundTimeAux_hhmm (h m : Nat) (hh : h < 24) (hm : m < 60) :
    roundTimeAux ((fmtTimeMin (60 * h + m)).toList) =
      some (String.mk (fmt02 ((h + (if pyRound15 m = 60 then 1 else 0)) % 24) ++
        ':' :: fmt02 (if pyRound15 m = 60 then 0 else pyRound15 m))) := by
  have ediv : (60 * h + m) / 60 = h := by omega
  have emod : (60 * h + m) % 60 = m := by omega
  have eL : (fmtTimeMin (60 * h + m)).toList = fmt02 h ++ ':' :: fmt02 m := by
    simp [fmtTimeMin, ediv, emod, String.toList]
  have hdh := fmt02_all_digit h (by omega)
  have hdm := fmt02_all_digit m (by omega)
  have hfacts : ∀ c ∈ fmt02 h ++ ':' :: fmt02 m,
      pyIsSpace c = false ∧ Char.toLower c = c ∧
        c ≠ 'p' ∧ c ≠ 'a' ∧ c ≠ '.' ∧ c ≠ ' ' := by
    intro c hc
    rcases List.mem_append.mp hc with hca | hcb
    · exact digitChar_facts (hdh c hca)
    · rcases List.mem_cons.mp hcb with rfl | hcm
      · exact ⟨by decide, by decide, by decide, by decide, by decide, by decide⟩
      · exact digitChar_facts (hdm c hcm)
  set L := fmt02 h ++ ':' :: fmt02 m with hLdef
  have e1 : pyStrip L = L := pyStrip_eq_self (fun c hc => (hfacts c hc).1)
  have e2 : L.map Char.toLower = L := map_toLower_eq_self (fun c hc => (hfacts c hc).2.1)
  have hnp : ∀ c ∈ L, c ≠ 'p' := fun c hc => (hfacts c hc).2.2.1
  have hna : ∀ c ∈ L, c ≠ 'a' := fun c hc => (hfacts c hc).2.2.2.1
  have hnd : ∀ c ∈ L, c ≠ '.' := fun c hc => (hfacts c hc).2.2.2.2.1
  have hns : ∀ c ∈ L, c ≠ ' ' := fun c hc => (hfacts c hc).2.2.2.2.2
  have cp1 : containsSub "p.m".toList L = false := containsSub_eq_false hnp
  have cp2 : containsSub "pm".toList L = false := containsSub_eq_false hnp
  have cp3 : containsSub "p m".toList L = false := containsSub_eq_false hnp
  have ca1 : containsSub "a.m".toList L = false := containsSub_eq_false hna
  have ca2 : containsSub "am".toList L = false := containsSub_eq_false hna
  have ca3 : containsSub "a m".toList L = false := containsSub_eq_false hna
  have epm : rtIsPM L = false := by
    unfold rtIsPM
    rw [cp1, cp2, cp3]
    rfl
  have eam : rtIsAM L = false := by
    unfold rtIsAM
    rw [ca1, ca2, ca3]
    rfl
  have rp1 : pyReplaceDel "p.m.".toList L = L := pyReplaceDel_eq_self hnp
  have rp2 : pyReplaceDel "a.m.".toList L = L := pyReplaceDel_eq_self hna
  have rp3 : pyReplaceDel "p.m".toList L = L := pyReplaceDel_eq_self hnp
  have rp4 : pyReplaceDel "a.m".toList L = L := pyReplaceDel_eq_self hna
  have rp5 : pyReplaceDel "pm".toList L = L := pyReplaceDel_eq_self hnp
  have rp6 : pyReplaceDel "am".toList L = L := pyReplaceDel_eq_self hna
  have rp7 : pyReplaceDel "p m".toList L = L := pyReplaceDel_eq_self hnp
  have rp8 : pyReplaceDel "a m".toList L = L := pyReplaceDel_eq_self hna
  have rp9 : pyReplaceDel ".".toList L = L := pyReplaceDel_eq_self hnd
  have rp10 : pyReplaceDel " ".toList L = L := pyReplaceDel_eq_self hns
  have enorm : rtNormalize L = L := by
    unfold rtNormalize
    rw [rp1, rp2, rp3, rp4, rp5, rp6, rp7, rp8, rp9, e1, rp10]
  have econ : L.contains ':' = true := contains_colon_append _ _
  have esplit : splitOnColon L = [fmt02 h, fmt02 m] :=
    splitOnColon_append (fun c hc => digitChar_ne_colon (hdh c hc))
      (fun c hc => digitChar_ne_colon (hdm c hc))
  have eint : pyIntOpt (fmt02 h) = some (h : Int) := pyIntOpt_fmt02 h (by omega)
  obtain ⟨run, erun, erunval⟩ := firstDigitRun_fmt02 m (by omega)
  have eminute : rtMinuteOf [fmt02 h, fmt02 m] = m := by
    show (match firstDigitRun (fmt02 m) with
      | some run => digitsToNat run
      | none => 0) = m
    rw [erun]
    exact erunval
  have eparse : rtParse L = some ((h : Int), m) := by
    unfold rtParse
    rw [econ, if_pos rfl, esplit, List.headD_cons, eint, eminute]
  have efin : rtFinish false false (h : Int) m =
      String.mk (fmt02 ((h + (if pyRound15 m = 60 then 1 else 0)) % 24) ++
        ':' :: fmt02 (if pyRound15 m = 60 then 0 else pyRound15 m)) := by
    unfold rtFinish
    simp only [Bool.false_eq_true, false_and, if_false]
    split
    · next hcarry =>
      congr 3
    · next hcarry =>
      congr 3
  rw [eL]
  unfold roundTimeAux
  rw [e1, e2, enorm, eparse]
  show some (rtFinish (rtIsPM L) (rtIsAM L) (h : Int) m) = _
  rw [epm, eam, efin]

end RestaurantAgent

namespace RestaurantAgent

/-- Unfolding of the slot rendering at an hour/minute pair. -/
theorem fmtTimeMin_hm {H M : Nat} (hM : M < 60) :
    fmtTimeMin (60 * H + M) = String.mk (fmt02 H ++ ':' :: fmt02 M) := by
  have e1 : (60 * H + M) / 60 = H := by omega
  have e2 : (60 * H + M) % 60 = M := by omega
  rw [fmtTimeMin, e1, e2]

/-- The rounded minute is in `{0, 15, 30, 45, 60}` for an in-range
minute. -/
theorem pyRound15_cases {m : Nat} (hm : m < 60) :
    pyRound15 m = 0 ∨ pyRound15 m = 15 ∨ pyRound15 m = 30 ∨
      pyRound15 m = 45 ∨ pyRound15 m = 60 := by
  unfold pyRound15
  split <;> omega

end RestaurantAgent

namespace RestaurantAgent

/-- C5: `round_time_to_slot` rounds the parsed minute to the nearest
multiple of 15 (the distance to the chosen multiple is at most 7, so a
true tie — which would need a distance of 7.5 — never occurs and
round-half-up is consistent with the behaviour), a rounded minute of 60
carries into the next hour, the hour wraps modulo 24, and in particular
`"7:05 PM" ↦ "19:00"` and `"7:08 PM" ↦ "19:15"`. -/
theorem round_time_to_slot_nearest :
    (∀ m : Nat, pyRound15 m % 15 = 0 ∧ ((pyRound15 m : Int) - m).natAbs ≤ 7 ∧
      (∀ k : Nat, k % 15 = 0 →
        ((pyRound15 m : Int) - m).natAbs ≤ ((k : Int) - m).natAbs)) ∧
    (∀ h m : Nat, h < 24 → m < 60 →
      round_time_to_slot (fmtTimeMin (60 * h + m)) =
        fmtTimeMin (60 * ((h + (if pyRound15 m = 60 then 1 else 0)) % 24) +
          (if pyRound15 m = 60 then 0 else pyRound15 m))) ∧
    round_time_to_slot "7:05 PM" = "19:00" ∧
    round_time_to_slot "7:08 PM" = "19:15" := by
  refine ⟨?_, ?_, by decide, by decide⟩
  · intro m
    refine ⟨?_, ?_, ?_⟩
    · unfold pyRound15
      split <;> omega
    · unfold pyRound15
      split <;> omega
    · intro k hk
      unfold pyRound15
      split <;> omega
  · intro h m hh hm
    unfold round_time_to_slot
    rw [roundTimeAux_hhmm h m hh hm]
    have hM : (if pyRound15 m = 60 then 0 else pyRound15 m) < 60 := by
      rcases pyRound15_cases hm with h5 | h5 | h5 | h5 | h5 <;> simp [h5]
    rw [fmtTimeMin_hm hM]
    rfl

/-- Witness for `round_time_to_slot_nearest` at concrete inputs: minute 8
rounds no farther than the multiple 15, and `"23:55"` exercises the carry
and the modulo-24 wrap. -/
theorem round_time_to_slot_nearest_witness :
    ((pyRound15 8 : Int) - 8).natAbs ≤ ((15 : Nat) - (8 : Int)).natAbs ∧
    round_time_to_slot (fmtTimeMin (60 * 23 + 55)) =
      fmtTimeMin (60 * ((23 + (if pyRound15 55 = 60 then 1 else 0)) % 24) +
        (if pyRound15 55 = 60 then 0 else pyRound15 55)) :=
  ⟨(round_time_to_slot_nearest.1 8).2.2 15 (by decide),
   round_time_to_slot_nearest.2.1 23 55 (by decide) (by decide)⟩

/-- C6: `round_time_to_slot` is total — it returns `"19:00"` whenever the
parse body raises, also on inputs without any digits — and on every valid
two-digit `"HH:MM"` input the output is a canonical time whose hour is
below 24 and whose minute is one of 0, 15, 30, 45. -/
theorem round_time_to_slot_total :
    (∀ s : String, roundTimeAux s.toList = none → round_time_to_slot s = "19:00") ∧
    round_time_to_slot "abc" = "19:00" ∧
    round_time_to_slot ":30" = "19:00" ∧
    (∀ h m : Nat, h < 24 → m < 60 →
      ∃ H M : Nat, round_time_to_slot (fmtTimeMin (60 * h + m)) = fmtTimeMin (60 * H + M) ∧
        H < 24 ∧ (M = 0 ∨ M = 15 ∨ M = 30 ∨ M = 45)) := by
  refine ⟨?_, by decide, by decide, ?_⟩
  · intro s hs
    unfold round_time_to_slot
    rw [hs]
    rfl
  · intro h m hh hm
    refine ⟨(h + (if pyRound15 m = 60 then 1 else 0)) % 24,
      if pyRound15 m = 60 then 0 else pyRound15 m,
      (round_time_to_slot_nearest.2.1 h m hh hm), by omega, ?_⟩
    rcases pyRound15_cases hm with h5 | h5 | h5 | h5 | h5 <;> simp [h5]

/-- Witness for `round_time_to_slot_total`: the exception path on a
malformed input, and the range facts at `"19:08"`. -/
theorem round_time_to_slot_total_witness :
    round_time_to_slot "x:" = "19:00" ∧
    (∃ H M : Nat, round_time_to_slot (fmtTimeMin (60 * 19 + 8)) = fmtTimeMin (60 * H + M) ∧
      H < 24 ∧ (M = 0 ∨ M = 15 ∨ M = 30 ∨ M = 45)) :=
  ⟨round_time_to_slot_total.1 "x:" (by decide),
   round_time_to_slot_total.2.2.2 19 8 (by decide) (by decide)⟩

end RestaurantAgent

namespace RestaurantAgent

/-- Truncation and floor agree on nonnegative rationals. -/
theorem pyTrunc_of_nonneg {q : ℚ} (h : 0 ≤ q) : pyTrunc q = ⌊q⌋ :=
  if_pos h

end RestaurantAgent

namespace ReservationConfig

/-- Ceiling selection as the spec words it: the peak ceiling on the
half-open peak window, the off-peak ceiling elsewhere. -/
def ceiling_for (t : Nat) : ℚ :=
  if PEAK_HOURS_START ≤ t ∧ t < PEAK_HOURS_END then PEAK_HOUR_CAPACITY_LIMIT
  else OFF_PEAK_CAPACITY_LIMIT

/-- C8: the capacity bound is the floor of total capacity times the
ceiling for the time of day, the peak ceiling being selected exactly on
`peak_start <= t < peak_end`; the window is half-open, so `peak_end`
itself is off-peak. -/
theorem get_max_capacity_for_time_floor :
    (∀ t : Nat, get_max_capacity_for_time t = ⌊(TOTAL_CAPACITY : ℚ) * ceiling_for t⌋) ∧
    (∀ t : Nat, is_peak_hour t = true ↔ PEAK_HOURS_START ≤ t ∧ t < PEAK_HOURS_END) ∧
    is_peak_hour PEAK_HOURS_END = false ∧
    get_max_capacity_for_time PEAK_HOURS_END =
      ⌊(TOTAL_CAPACITY : ℚ) * OFF_PEAK_CAPACITY_LIMIT⌋ := by
  have key : ∀ q : ℚ, 0 ≤ q →
      RestaurantAgent.pyTrunc (RestaurantAgent.ratScale TOTAL_CAPACITY q) =
        ⌊(TOTAL_CAPACITY : ℚ) * q⌋ := by
    intro q hq
    rw [RestaurantAgent.ratScale_eq]
    exact RestaurantAgent.pyTrunc_of_nonneg (by positivity)
  refine ⟨?_, ?_, by decide, ?_⟩
  · intro t
    unfold get_max_capacity_for_time ceiling_for
    split
    · exact key PEAK_HOUR_CAPACITY_LIMIT (by norm_num [PEAK_HOUR_CAPACITY_LIMIT])
    · exact key OFF_PEAK_CAPACITY_LIMIT (by norm_num [OFF_PEAK_CAPACITY_LIMIT])
  · intro t
    unfold is_peak_hour
    exact decide_eq_true_iff
  · unfold get_max_capacity_for_time
    rw [if_neg (by omega)]
    exact key OFF_PEAK_CAPACITY_LIMIT (by norm_num [OFF_PEAK_CAPACITY_LIMIT])

end ReservationConfig

namespace RestaurantAgent

/-- Reduction of `parse_natural_date` on each bare weekday name: the
string dispatch is concrete, so the result is `today` plus the computed
days-ahead offset. -/
theorem parse_natural_date_weekday_eq (today : Nat) :
    ∀ p ∈ days_of_week,
      parse_natural_date p.1 today = some (today + nextAhead p.2 (today % 7)) := by
  intro p hp
  fin_cases hp <;> rfl

/-- Arithmetic of the days-ahead offset: it is in `[1, 7]`, lands on the
requested weekday, and is a full week when today already is that
weekday. -/
theorem nextAhead_props :
    ∀ dayNum : Nat, dayNum < 7 → ∀ w : Nat, w < 7 →
      1 ≤ nextAhead dayNum w ∧ nextAhead dayNum w ≤ 7 ∧
      (w + nextAhead dayNum w) % 7 = dayNum ∧
      (w = dayNum → nextAhead dayNum w = 7) := by decide

/-- C7: on a bare weekday name, `parse_natural_date` returns the next
occurrence of that weekday strictly after today — between 1 and 7 days
ahead, on the right weekday, a full 7 days when today is already that
weekday — and never today itself. -/
theorem parse_natural_date_next_weekday :
    (∀ today : Nat, ∀ p ∈ days_of_week,
      parse_natural_date p.1 today = some (today + nextAhead p.2 (today % 7))) ∧
    (∀ dayNum : Nat, dayNum < 7 → ∀ w : Nat, w < 7 →
      1 ≤ nextAhead dayNum w ∧ nextAhead dayNum w ≤ 7 ∧
      (w + nextAhead dayNum w) % 7 = dayNum ∧
      (w = dayNum → nextAhead dayNum w = 7)) ∧
    (∀ today : Nat, ∀ p ∈ days_of_week, parse_natural_date p.1 today ≠ some today) := by
  refine ⟨parse_natural_date_weekday_eq, nextAhead_props, ?_⟩
  intro today p hp h
  rw [parse_natural_date_weekday_eq today p hp] at h
  have hnum : p.2 < 7 := by
    fin_cases hp <;> decide
  have h1 := (nextAhead_props p.2 hnum (today % 7) (by omega)).1
  have := Option.some.inj h
  omega

/-- Witness for `parse_natural_date_next_weekday`: Friday queried on a
Wednesday (`today = 9`, weekday 2) and on a Friday (`today = 11`,
weekday 4). -/
theorem parse_natural_date_next_weekday_witness :
    parse_natural_date "friday" 9 = some (9 + nextAhead 4 (9 % 7)) ∧
    (1 ≤ nextAhead 4 4 ∧ nextAhead 4 4 ≤ 7 ∧ (4 + nextAhead 4 4) % 7 = 4 ∧
      (4 = 4 → nextAhead 4 4 = 7)) ∧
    parse_natural_date "friday" 11 ≠ some 11 :=
  ⟨parse_natural_date_next_weekday.1 9 ("friday", 4) (by decide),
   parse_natural_date_next_weekday.2.1 4 (by decide) 4 (by decide),
   parse_natural_date_next_weekday.2.2 11 ("friday", 4) (by decide)⟩

end RestaurantAgent

namespace RestaurantAgent

/-- A prefix of a list is a prefix of any extension. -/
theorem isPrefixL_append : ∀ {pat a : List Char} (b : List Char),
    isPrefixL pat a = true → isPrefixL pat (a ++ b) = true
  | [], _, _, _ => rfl
  | _ :: _, [], _, h => by simp [isPrefixL] at h
  | p :: pr, c :: rest, b, h => by
    rw [isPrefixL, Bool.and_eq_true] at h
    rw [List.cons_append, isPrefixL, Bool.and_eq_true]
    exact ⟨h.1, isPrefixL_append b h.2⟩

/-- A substring occurrence survives appending on the right. -/
theorem containsSub_append_left {pat : List Char} :
    ∀ {a : List Char} (b : List Char), containsSub pat a = true →
      containsSub pat (a ++ b) = true
  | [], b, h => by
    cases pat with
    | nil =>
      cases b with
      | nil => rfl
      | cons c rest => simp [containsSub, isPrefixL]
    | cons p pr => simp [containsSub, isPrefixL] at h
  | c :: rest, b, h => by
    rw [containsSub, Bool.or_eq_true] at h
    rw [List.cons_append, containsSub, Bool.or_eq_true]
    rcases h with h | h
    · exact Or.inl (isPrefixL_append b h)
    · exact Or.inr (containsSub_append_left b h)

/-- The character list of a concatenation of strings. -/
theorem toList_str_append (a b : String) : (a ++ b).toList = a.toList ++ b.toList := by
  cases a with
  | mk da =>
    cases b with
    | mk db => rfl

/-- C9: when the persistence sink reports failure, `confirm_reservation`
still replies with the fixed confirmation sentence — the reply names the
reservation as confirmed and no error surfaces to the customer — for
every session with a phone, a name and a pending reservation; the pending
draft is left in place. -/
theorem confirm_reservation_soft_failure :
    ∀ (ud : UserData) (p : PendingReservation),
      falsyStr ud.customer_phone = false → falsyStr ud.customer_name = false →
      ud.pending_reservation = some p →
      (confirm_reservation ud false).1 =
        "Your reservation is confirmed for " ++ p.formatted_date ++ " at " ++
          p.formatted_time ++ ". Thank you!" ∧
      containsSub "reservation is confirmed".toList
        ((confirm_reservation ud false).1).toList = true ∧
      (confirm_reservation ud false).2 = ud := by
  intro ud p hphone hname hpend
  have hbody : confirm_reservation ud false =
      ("Your reservation is confirmed for " ++ p.formatted_date ++ " at " ++
        p.formatted_time ++ ". Thank you!", ud) := by
    unfold confirm_reservation
    rw [hphone, hname, hpend]
    simp only [Bool.false_eq_true, if_false]
  refine ⟨by rw [hbody], ?_, by rw [hbody]⟩
  rw [hbody]
  show containsSub "reservation is confirmed".toList
    ("Your reservation is confirmed for " ++ p.formatted_date ++ " at " ++
      p.formatted_time ++ ". Thank you!").toList = true
  rw [toList_str_append, toList_str_append, toList_str_append, toList_str_append]
  refine containsSub_append_left _ ?_
  refine containsSub_append_left _ ?_
  refine containsSub_append_left _ ?_
  refine containsSub_append_left _ ?_
  decide

/-- Witness for `confirm_reservation_soft_failure` on a concrete
session. -/
theorem confirm_reservation_soft_failure_witness :
    (confirm_reservation
      ⟨some "5551234", some "Ada", some ⟨7, "19:00", 4, "Friday, December 6th", "7 PM"⟩⟩
      false).1 =
      "Your reservation is confirmed for " ++ "Friday, December 6th" ++ " at " ++
        "7 PM" ++ ". Thank you!" ∧
    containsSub "reservation is confirmed".toList
      ((confirm_reservation
        ⟨some "5551234", some "Ada", some ⟨7, "19:00", 4, "Friday, December 6th", "7 PM"⟩⟩
        false).1).toList = true ∧
    (confirm_reservation
      ⟨some "5551234", some "Ada", some ⟨7, "19:00", 4, "Friday, December 6th", "7 PM"⟩⟩
      false).2 =
      ⟨some "5551234", some "Ada", some ⟨7, "19:00", 4, "Friday, December 6th", "7 PM"⟩⟩ :=
  confirm_reservation_soft_failure
    ⟨some "5551234", some "Ada", some ⟨7, "19:00", 4, "Friday, December 6th", "7 PM"⟩⟩
    ⟨7, "19:00", 4, "Friday, December 6th", "7 PM"⟩ (by decide) (by decide) rfl

/-- C10: a booking time on which the `HH:MM` parse raises makes
`calculate_available_capacity` return exactly `0` — neither negative nor
an exception — indistinguishable from a fully booked slot. -/
theorem calculate_available_capacity_malformed :
    ∀ (db : List ReservationDoc) (bdate : Nat) (btime : String) (dur : Nat),
      pyParseTimeHM btime = none →
      calculate_available_capacity db bdate btime dur = 0 := by
  intro db bdate btime dur h
  unfold calculate_available_capacity
  rw [h]

/-- Witness for `calculate_available_capacity_malformed` on a concrete
malformed time, also against a nonempty database. -/
theorem calculate_available_capacity_malformed_witness :
    pyParseTimeHM "garbage" = none ∧
    calculate_available_capacity
      [⟨"5551234", "Ada", 10, 0, "19:00", 90, "confirmed"⟩] 0 "garbage" 90 = 0 :=
  ⟨by decide,
   calculate_available_capacity_malformed
     [⟨"5551234", "Ada", 10, 0, "19:00", 90, "confirmed"⟩] 0 "garbage" 90 (by decide)⟩

end RestaurantAgent

namespace RestaurantAgent

/-- Start minute of a stored booking, as parsed by the overlap loop
(`0` is irrelevant: it is only read under a parse-success hypothesis). -/
def resStartMin (r : ReservationDoc) : Nat :=
  match pyParseTimeHM r.booking_time with
  | some (h, m) => 60 * h + m
  | none => 0

/-- Strict interval overlap, as the spec words it:
`a_start < b_end AND b_start < a_end`. -/
def strict_overlap (aStart aEnd bStart bEnd : Nat) : Prop :=
  aStart < bEnd ∧ bStart < aEnd

instance (aStart aEnd bStart bEnd : Nat) :
    Decidable (strict_overlap aStart aEnd bStart bEnd) :=
  inferInstanceAs (Decidable (_ ∧ _))

/-- Combined record predicate of the availability computation: on the
queried date, confirmed, and strictly overlapping the query interval. -/
def occupies (bdate qStart qEnd : Nat) (r : ReservationDoc) : Bool :=
  r.booking_date == bdate && r.status == "confirmed" &&
    decide (strict_overlap (resStartMin r) (resStartMin r + r.dining_duration) qStart qEnd)

/-- Occupied seats as the spec words them: the sum of the party sizes of
the confirmed bookings of the date whose dining interval strictly
overlaps the query interval. -/
def occupied_on (db : List ReservationDoc) (bdate qStart qEnd : Nat) : Nat :=
  ((db.filter (occupies bdate qStart qEnd)).map (fun r => r.party_size)).sum

/-- The overlap loop succeeds on a list of parseable records and keeps
exactly the strictly overlapping ones. -/
theorem overlapFilterLoop_eq (slotStart slotEnd : Nat) :
    ∀ {l : List ReservationDoc},
      (∀ r ∈ l, (pyParseTimeHM r.booking_time).isSome = true) →
      overlapFilterLoop slotStart slotEnd l =
        some (l.filter (fun r =>
          decide (strict_overlap (resStartMin r) (resStartMin r + r.dining_duration)
            slotStart slotEnd)))
  | [], _ => rfl
  | r :: rest, h => by
    obtain ⟨⟨rh, rm⟩, hr⟩ :=
      Option.isSome_iff_exists.mp (h r (List.mem_cons_self r rest))
    have hrs : resStartMin r = 60 * rh + rm := by
      unfold resStartMin
      rw [hr]
    have ih := overlapFilterLoop_eq slotStart slotEnd
      (fun d hd => h d (List.mem_cons_of_mem r hd))
    rw [overlapFilterLoop, hr, ih]
    by_cases hov : 60 * rh + rm < slotEnd ∧ slotStart < 60 * rh + rm + r.dining_duration
    · simp [List.filter_cons, strict_overlap, hrs, hov, GT.gt]
    · simp [List.filter_cons, strict_overlap, hrs, hov, GT.gt]

/-- `get_reservations_for_slot` returns exactly the confirmed bookings of
the date that strictly overlap the queried interval (under a parseable
query time and parseable stored times). -/
theorem get_reservations_for_slot_eq_filter
    (db : List ReservationDoc) (bdate : Nat) (btime : String) (h m dur : Nat)
    (hbt : pyParseTimeHM btime = some (h, m))
    (hdb : ∀ r ∈ db, (pyParseTimeHM r.booking_time).isSome = true) :
    get_reservations_for_slot db bdate btime dur =
      db.filter (occupies bdate (60 * h + m) (60 * h + m + dur)) := by
  unfold get_reservations_for_slot
  rw [hbt]
  show (overlapFilterLoop (60 * h + m) (60 * h + m + dur)
      (db.filter (fun r => r.booking_date == bdate && r.status == "confirmed"))).getD [] = _
  have hdated : ∀ r ∈ db.filter
      (fun r => r.booking_date == bdate && r.status == "confirmed"),
      (pyParseTimeHM r.booking_time).isSome = true :=
    fun r hr => hdb r (List.mem_filter.mp hr).1
  rw [overlapFilterLoop_eq _ _ hdated]
  rw [Option.getD_some, List.filter_filter]
  apply List.filter_congr
  intro r _
  unfold occupies
  cases hd : (r.booking_date == bdate) <;>
    cases hs : (r.status == "confirmed") <;>
    cases hov : decide (strict_overlap (resStartMin r)
      (resStartMin r + r.dining_duration) (60 * h + m) (60 * h + m + dur)) <;>
    simp [hd, hs, hov]

end RestaurantAgent

namespace RestaurantAgent

/-- C1: for a parseable query time (and stored times that parse, as every
booking written by the confirmation flow does), the available capacity is
the capacity bound for the queried time minus the summed party sizes of
the confirmed bookings of the date strictly overlapping
`[time, time + duration)`; the subtraction is over `Int`, so the result
may be negative when the slot is overbooked. -/
theorem calculate_available_capacity_spec :
    ∀ (db : List ReservationDoc) (bdate : Nat) (btime : String) (h m dur : Nat),
      pyParseTimeHM btime = some (h, m) →
      (∀ r ∈ db, (pyParseTimeHM r.booking_time).isSome = true) →
      calculate_available_capacity db bdate btime dur =
        ReservationConfig.get_max_capacity_for_time (60 * h + m) -
          (occupied_on db bdate (60 * h + m) (60 * h + m + dur) : Int) := by
  intro db bdate btime h m dur hbt hdb
  unfold calculate_available_capacity
  rw [hbt]
  show ReservationConfig.get_max_capacity_for_time (60 * h + m) -
      (((((get_reservations_for_slot db bdate btime dur).filter
        (fun r => r.status == "confirmed")).map (fun r => r.party_size)).sum : Nat) : Int) = _
  rw [get_reservations_for_slot_eq_filter db bdate btime h m dur hbt hdb]
  rw [List.filter_filter]
  unfold occupied_on
  congr 3
  apply congrArg
  apply List.filter_congr
  intro r _
  unfold occupies
  cases hd : (r.booking_date == bdate) <;>
    cases hs : (r.status == "confirmed") <;>
    cases hov : decide (strict_overlap (resStartMin r)
      (resStartMin r + r.dining_duration) (60 * h + m) (60 * h + m + dur)) <;>
    simp [hd, hs, hov, occupies]

/-- Witness for `calculate_available_capacity_spec`: one confirmed party
of 10 at 19:00 for 90 minutes leaves 40 of the 50 seats for the same
slot, and an overbooked slot yields a negative count. -/
theorem calculate_available_capacity_spec_witness :
    calculate_available_capacity [⟨"5551234", "Ada", 10, 0, "19:00", 90, "confirmed"⟩]
        0 "19:00" 90 =
      ReservationConfig.get_max_capacity_for_time (60 * 19 + 0) -
        (occupied_on [⟨"5551234", "Ada", 10, 0, "19:00", 90, "confirmed"⟩]
          0 (60 * 19 + 0) (60 * 19 + 0 + 90) : Int) ∧
    calculate_available_capacity [⟨"5551234", "Ada", 10, 0, "19:00", 90, "confirmed"⟩]
        0 "19:00" 90 = 40 ∧
    calculate_available_capacity [⟨"5551234", "Ada", 60, 0, "19:00", 90, "confirmed"⟩]
        0 "19:00" 90 = -10 :=
  ⟨calculate_available_capacity_spec
      [⟨"5551234", "Ada", 10, 0, "19:00", 90, "confirmed"⟩] 0 "19:00" 19 0 90
      (by decide) (by decide),
   by decide, by decide⟩

/-- C2 counterexample: `get_reservations_for_slot` does not return every
stored record of the date — a cancelled booking of the date is dropped
(the query filters on confirmed status), and a confirmed booking of the
date at a non-overlapping time is dropped (the loop filters on
overlap). -/
theorem get_reservations_for_slot_filters_counterexample :
    (get_reservations_for_slot [⟨"5551234", "Ada", 4, 0, "12:00", 90, "cancelled"⟩]
        0 "12:00" 90 = [] ∧
      (⟨"5551234", "Ada", 4, 0, "12:00", 90, "cancelled"⟩ : ReservationDoc).booking_date = 0) ∧
    (get_reservations_for_slot [⟨"5551234", "Ada", 4, 0, "12:00", 90, "confirmed"⟩]
        0 "18:00" 90 = [] ∧
      (⟨"5551234", "Ada", 4, 0, "12:00", 90, "confirmed"⟩ : ReservationDoc).booking_date = 0) := by
  decide

/-- C2 (amended): the collaborator itself filters — it returns exactly
the records of the date with status `"confirmed"` whose dining interval
strictly overlaps the queried slot (for parseable times); the status and
overlap filtering do not wait for the availability engine. -/
theorem get_reservations_for_slot_confirmed_overlapping :
    ∀ (db : List ReservationDoc) (bdate : Nat) (btime : String) (h m dur : Nat),
      pyParseTimeHM btime = some (h, m) →
      (∀ r ∈ db, (pyParseTimeHM r.booking_time).isSome = true) →
      get_reservations_for_slot db bdate btime dur =
        db.filter (occupies bdate (60 * h + m) (60 * h + m + dur)) :=
  fun db bdate btime h m dur hbt hdb =>
    get_reservations_for_slot_eq_filter db bdate btime h m dur hbt hdb

/-- Witness for `get_reservations_for_slot_confirmed_overlapping` on a
two-record database: the confirmed overlapping record is kept, the
cancelled one is dropped. -/
theorem get_reservations_for_slot_confirmed_overlapping_witness :
    get_reservations_for_slot
        [⟨"5551234", "Ada", 4, 0, "19:30", 90, "confirmed"⟩,
         ⟨"5559876", "Grace", 6, 0, "19:30", 90, "cancelled"⟩] 0 "19:00" 90 =
      List.filter (occupies 0 (60 * 19 + 0) (60 * 19 + 0 + 90))
        [⟨"5551234", "Ada", 4, 0, "19:30", 90, "confirmed"⟩,
         ⟨"5559876", "Grace", 6, 0, "19:30", 90, "cancelled"⟩] ∧
    get_reservations_for_slot
        [⟨"5551234", "Ada", 4, 0, "19:30", 90, "confirmed"⟩,
         ⟨"5559876", "Grace", 6, 0, "19:30", 90, "cancelled"⟩] 0 "19:00" 90 =
      [⟨"5551234", "Ada", 4, 0, "19:30", 90, "confirmed"⟩] :=
  ⟨get_reservations_for_slot_confirmed_overlapping
      [⟨"5551234", "Ada", 4, 0, "19:30", 90, "confirmed"⟩,
       ⟨"5559876", "Grace", 6, 0, "19:30", 90, "cancelled"⟩] 0 "19:00" 19 0 90
      (by decide) (by decide),
   by decide⟩

end RestaurantAgent

namespace RestaurantAgent

/-- Start minute of a generated slot string (only read where the parse is
known to succeed). -/
def slotMinOf (s : String) : Nat :=
  match pyParseTimeHM s with
  | some (h, m) => 60 * h + m
  | none => 0

/-- Bounded check: every generated slot string parses back. -/
def slots_parse_check : Bool :=
  generate_time_slots.all (fun s => (pyParseTimeHM s).isSome)

/-- The generated slot strings all parse. -/
theorem slots_parse_check_holds : slots_parse_check = true := by decide

/-- Membership form of `slots_parse_check_holds`. -/
theorem mem_generate_parses {s : String} (hs : s ∈ generate_time_slots) :
    (pyParseTimeHM s).isSome = true :=
  List.all_eq_true.mp slots_parse_check_holds s hs

/-- The window loop succeeds on parseable slots and keeps exactly the
slots within the ±window of the preferred minute. -/
theorem windowFilterLoop_eq (prefMin : Nat) :
    ∀ {l : List String}, (∀ s ∈ l, (pyParseTimeHM s).isSome = true) →
      windowFilterLoop prefMin l =
        some (l.filter (fun s =>
          decide (((slotMinOf s : Int) - prefMin).natAbs ≤
            ReservationConfig.ALTERNATIVE_TIME_WINDOW_MINUTES)))
  | [], _ => rfl
  | s :: rest, h => by
    obtain ⟨⟨sh, sm⟩, hsparse⟩ :=
      Option.isSome_iff_exists.mp (h s (List.mem_cons_self s rest))
    have hsm : slotMinOf s = 60 * sh + sm := by
      unfold slotMinOf
      rw [hsparse]
    have ih := windowFilterLoop_eq prefMin
      (fun d hd => h d (List.mem_cons_of_mem s hd))
    rw [windowFilterLoop, hsparse, ih]
    by_cases hw : ((60 * sh + sm : Int) - prefMin).natAbs ≤
        ReservationConfig.ALTERNATIVE_TIME_WINDOW_MINUTES
    · simp [List.filter_cons, hsm, hw]
    · simp [List.filter_cons, hsm, hw]

/-- With a parseable preferred time, the candidate set is exactly the
slots of the day within the ±60-minute window, boundary included. -/
theorem search_slots_window {p : String} {ph pm : Nat}
    (hp : pyParseTimeHM p = some (ph, pm)) :
    search_slots (some p) =
      generate_time_slots.filter (fun s =>
        decide (((slotMinOf s : Int) - ((60 * ph + pm : Nat) : Int)).natAbs ≤
          ReservationConfig.ALTERNATIVE_TIME_WINDOW_MINUTES)) := by
  have hne : (p == "") = false := by
    rw [beq_eq_false_iff_ne]
    intro he
    rw [he] at hp
    rw [show pyParseTimeHM "" = (none : Option (Nat × Nat)) from rfl] at hp
    exact Option.noConfusion hp
  unfold search_slots
  show (if (p == "") = true then generate_time_slots
    else match pyParseTimeHM p with
      | none => generate_time_slots
      | some (ph, pm) =>
        (windowFilterLoop (60 * ph + pm) generate_time_slots).getD generate_time_slots) = _
  rw [hne]
  simp only [Bool.false_eq_true, if_false]
  rw [hp]
  show (windowFilterLoop (60 * ph + pm) generate_time_slots).getD generate_time_slots = _
  rw [windowFilterLoop_eq (60 * ph + pm) (fun s hs => mem_generate_parses hs)]
  rfl

/-- Membership in the pre-sort availability list. -/
theorem mem_collect_available {db : List ReservationDoc} {bdate : Nat} {party : Int}
    {pref : Option String} {info : SlotInfo} :
    info ∈ collect_available db bdate party pref ↔
      ∃ s ∈ search_slots pref,
        party ≤ calculate_available_capacity db bdate s
          ReservationConfig.DEFAULT_DINING_DURATION ∧
        info = ⟨s, calculate_available_capacity db bdate s
          ReservationConfig.DEFAULT_DINING_DURATION, slot_distance pref s⟩ := by
  unfold collect_available
  rw [List.mem_filterMap]
  constructor
  · rintro ⟨s, hs, hf⟩
    by_cases hc : party ≤ calculate_available_capacity db bdate s
        ReservationConfig.DEFAULT_DINING_DURATION
    · rw [if_pos hc] at hf
      exact ⟨s, hs, hc, (Option.some.inj hf).symm⟩
    · rw [if_neg hc] at hf
      exact absurd hf (by simp)
  · rintro ⟨s, hs, hc, rfl⟩
    exact ⟨s, hs, by rw [if_pos hc]⟩

/-- Membership in the sorted availability list is membership before the
sort. -/
theorem mem_get_available_slots {db : List ReservationDoc} {bdate : Nat} {party : Int}
    {pref : Option String} {info : SlotInfo} :
    info ∈ get_available_slots db bdate party pref ↔
      info ∈ collect_available db bdate party pref := by
  unfold get_available_slots
  by_cases ht : prefTruthy pref = true
  · rw [if_pos ht]
    exact List.mem_insertionSort distLE
  · rw [if_neg ht]
    exact List.mem_insertionSort timeLE

end RestaurantAgent

namespace RestaurantAgent

/-- A parseable time string is nonempty. -/
theorem parse_ne_empty {p : String} {x : Nat × Nat}
    (hp : pyParseTimeHM p = some x) : (p == "") = false := by
  rw [beq_eq_false_iff_ne]
  intro he
  rw [he] at hp
  rw [show pyParseTimeHM "" = (none : Option (Nat × Nat)) from rfl] at hp
  exact Option.noConfusion hp

/-- The attached distance for a parseable preferred time and a parseable
slot is the absolute difference in minutes. -/
theorem slot_distance_eq {p s : String} {ph pm sh sm : Nat}
    (hp : pyParseTimeHM p = some (ph, pm)) (hs : pyParseTimeHM s = some (sh, sm)) :
    slot_distance (some p) s =
      ((slotMinOf s : Int) - ((60 * ph + pm : Nat) : Int)).natAbs := by
  unfold slot_distance
  show (if (p == "") = true then 0
    else match pyParseTimeHM p, pyParseTimeHM s with
      | some (ph, pm), some (sh, sm) => ((60 * sh + sm : Int) - (60 * ph + pm)).natAbs
      | _, _ => 0) = _
  rw [parse_ne_empty hp]
  simp only [Bool.false_eq_true, if_false]
  rw [hp, hs]
  have hsm : slotMinOf s = 60 * sh + sm := by
    unfold slotMinOf
    rw [hs]
  show ((60 * sh + sm : Int) - (60 * ph + pm)).natAbs = _
  rw [hsm]
  omega

/-- C3: every slot returned by `get_available_slots` carries a capacity of
at least the party size (the capacity recomputed for that slot); with a
parseable preferred time every returned slot lies within the symmetric
±60-minute window (inclusive) and carries the exact distance, and every
candidate slot of the day at distance at most 60 — the boundary included —
is in the searched set; with no preferred time the candidate set is every
slot of the day and the attached distance is 0. -/
theorem get_available_slots_spec :
    (∀ (db : List ReservationDoc) (bdate : Nat) (party : Int) (pref : Option String)
        (info : SlotInfo), info ∈ get_available_slots db bdate party pref →
      party ≤ info.available_capacity ∧
      info.available_capacity = calculate_available_capacity db bdate info.time
        ReservationConfig.DEFAULT_DINING_DURATION) ∧
    (∀ (db : List ReservationDoc) (bdate : Nat) (party : Int) (p : String)
        (ph pm : Nat) (info : SlotInfo),
      pyParseTimeHM p = some (ph, pm) →
      info ∈ get_available_slots db bdate party (some p) →
      ((slotMinOf info.time : Int) - ((60 * ph + pm : Nat) : Int)).natAbs ≤ 60 ∧
      info.distance_minutes =
        ((slotMinOf info.time : Int) - ((60 * ph + pm : Nat) : Int)).natAbs) ∧
    (∀ (p : String) (ph pm : Nat) (s : String),
      pyParseTimeHM p = some (ph, pm) → s ∈ generate_time_slots →
      ((slotMinOf s : Int) - ((60 * ph + pm : Nat) : Int)).natAbs ≤ 60 →
      s ∈ search_slots (some p)) ∧
    search_slots none = generate_time_slots ∧
    (∀ (db : List ReservationDoc) (bdate : Nat) (party : Int) (info : SlotInfo),
      info ∈ get_available_slots db bdate party none → info.distance_minutes = 0) := by
  refine ⟨?_, ?_, ?_, rfl, ?_⟩
  · intro db bdate party pref info hmem
    obtain ⟨s, hs, hc, rfl⟩ := mem_collect_available.mp (mem_get_available_slots.mp hmem)
    exact ⟨hc, rfl⟩
  · intro db bdate party p ph pm info hp hmem
    obtain ⟨s, hs, hc, rfl⟩ := mem_collect_available.mp (mem_get_available_slots.mp hmem)
    rw [search_slots_window hp] at hs
    obtain ⟨hsgen, hspred⟩ := List.mem_filter.mp hs
    have hbound := of_decide_eq_true hspred
    obtain ⟨⟨sh, sm⟩, hsparse⟩ :=
      Option.isSome_iff_exists.mp (mem_generate_parses hsgen)
    exact ⟨hbound, slot_distance_eq hp hsparse⟩
  · intro p ph pm s hp hsgen hbound
    rw [search_slots_window hp]
    exact List.mem_filter.mpr ⟨hsgen, decide_eq_true hbound⟩
  · intro db bdate party info hmem
    obtain ⟨s, hs, hc, rfl⟩ := mem_collect_available.mp (mem_get_available_slots.mp hmem)
    rfl

end RestaurantAgent

namespace RestaurantAgent

/-- Example database for the ranking scenario: five confirmed bookings on
day 0 whose occupancy leaves, within the ±60-minute window of 19:00,
exactly the slots 18:30, 19:15 and 20:00 with room for a party of 26. -/
def alt_example_db : List ReservationDoc :=
  [⟨"5550001", "A", 25, 0, "18:15", 15, "confirmed"⟩,
   ⟨"5550002", "B", 12, 0, "19:00", 15, "confirmed"⟩,
   ⟨"5550003", "C", 12, 0, "19:45", 15, "confirmed"⟩,
   ⟨"5550004", "D", 1, 0, "20:00", 15, "confirmed"⟩,
   ⟨"5550005", "E", 12, 0, "20:45", 15, "confirmed"⟩]

/-- Witness for `get_available_slots_spec`: the 19:15 entry returned for
the example database carries enough capacity for the party of 26, and the
boundary slot 18:00 (exactly 60 minutes from 19:00) is a candidate. -/
theorem get_available_slots_spec_witness :
    ((26 : Int) ≤ (⟨"19:15", 37, 15⟩ : SlotInfo).available_capacity ∧
      (⟨"19:15", 37, 15⟩ : SlotInfo).available_capacity =
        calculate_available_capacity alt_example_db 0 "19:15"
          ReservationConfig.DEFAULT_DINING_DURATION) ∧
    "18:00" ∈ search_slots (some "19:00") :=
  ⟨get_available_slots_spec.1 alt_example_db 0 26 (some "19:00")
      ⟨"19:15", 37, 15⟩ (by decide),
   get_available_slots_spec.2.2.1 "19:00" 19 0 "18:00" (by decide) (by decide) (by decide)⟩

/-- The insertion sort by distance is stable: the sublist at any fixed
distance is unchanged. -/
theorem filter_dist_insertionSort (d : Nat) (l : List SlotInfo) :
    (l.insertionSort distLE).filter (fun i => i.distance_minutes == d) =
      l.filter (fun i => i.distance_minutes == d) := by
  have hpair : (l.filter (fun i => i.distance_minutes == d)).Pairwise distLE := by
    apply List.pairwise_of_forall_mem_list
    intro a ha b hb
    have ha2 := (List.mem_filter.mp ha).2
    have hb2 := (List.mem_filter.mp hb).2
    unfold distLE
    rw [eq_of_beq ha2, eq_of_beq hb2]
  have hsub : List.Sublist (l.filter (fun i => i.distance_minutes == d)) l :=
    List.filter_sublist l
  have hc := List.sublist_insertionSort hpair hsub
  have hcf : List.Sublist (l.filter (fun i => i.distance_minutes == d))
      ((l.insertionSort distLE).filter (fun i => i.distance_minutes == d)) := by
    have h2 := hc.filter (fun i => i.distance_minutes == d)
    rwa [List.filter_eq_self.mpr (fun a ha => (List.mem_filter.mp ha).2)] at h2
  have hperm : List.Perm ((l.insertionSort distLE).filter (fun i => i.distance_minutes == d))
      (l.filter (fun i => i.distance_minutes == d)) :=
    (List.perm_insertionSort distLE l).filter _
  exact (hcf.eq_of_length hperm.length_eq.symm).symm

/-- C4: with a (truthy) preferred time the returned slot list is sorted by
ascending distance; the sort is stable — the slots at any fixed distance
keep their pre-sort (chronological) relative order; the spoken shortlist
is the first three entries; and in the concrete scenario with preferred
time 19:00 and sufficient capacity exactly at 18:30, 19:15 and 20:00 the
order is 19:15, 18:30, 20:00. -/
theorem suggest_alternative_slots_ranking :
    (∀ (db : List ReservationDoc) (bdate : Nat) (party : Int) (pref : Option String),
      prefTruthy pref = true →
      List.Sorted distLE (get_available_slots db bdate party pref)) ∧
    (∀ (db : List ReservationDoc) (bdate : Nat) (party : Int) (pref : Option String)
        (d : Nat), prefTruthy pref = true →
      (get_available_slots db bdate party pref).filter (fun i => i.distance_minutes == d) =
        (collect_available db bdate party pref).filter (fun i => i.distance_minutes == d)) ∧
    (∀ (db : List ReservationDoc) (bdate : Nat) (party : Int) (pref : Option String),
      top_alternatives db bdate party pref = (get_available_slots db bdate party pref).take 3) ∧
    top_alternatives alt_example_db 0 26 (some "19:00") =
      [⟨"19:15", 37, 15⟩, ⟨"18:30", 26, 30⟩, ⟨"20:00", 37, 60⟩] := by
  refine ⟨?_, ?_, fun db bdate party pref => rfl, by decide⟩
  · intro db bdate party pref ht
    unfold get_available_slots
    rw [if_pos ht]
    exact List.sorted_insertionSort distLE _
  · intro db bdate party pref d ht
    unfold get_available_slots
    rw [if_pos ht]
    exact filter_dist_insertionSort d _

/-- Witness for `suggest_alternative_slots_ranking` on the example
database. -/
theorem suggest_alternative_slots_ranking_witness :
    List.Sorted distLE (get_available_slots alt_example_db 0 26 (some "19:00")) ∧
    (get_available_slots alt_example_db 0 26 (some "19:00")).filter
        (fun i => i.distance_minutes == 30) =
      (collect_available alt_example_db 0 26 (some "19:00")).filter
        (fun i => i.distance_minutes == 30) :=
  ⟨suggest_alternative_slots_ranking.1 alt_example_db 0 26 (some "19:00") (by decide),
   suggest_alternative_slots_ranking.2.1 alt_example_db 0 26 (some "19:00") 30 (by decide)⟩

end RestaurantAgent
